import Mathlib

/-!
Verification development for the pgsync change-propagation core
(src/pgsync/sync.py and src/pgsync/checkpoint.py), shallowly embedded in
Lean 4.  Python strings are modelled as List Char, Python dicts as
insertion-ordered association lists, raised exceptions as Except values.
-/

deriving instance DecidableEq for Except

/-! Python-style exception kinds that the embedded code can raise. -/

inductive PyErr where
  | keyError
  | indexError
  | typeError
  | valueError
  | foreignKeyError
  | invalidTGOP
  | primaryKeyNotFound
  | runtimeError
  | attributeError
deriving DecidableEq, Repr

/-! Association-list model of a Python dict (insertion ordered). -/

abbrev Key := String

def alookup {β : Type} (m : List (Key × β)) (k : Key) : Option β :=
  (m.find? (fun kv => kv.1 == k)).map (fun kv => kv.2)

def dictSet {β : Type} (d : List (Key × β)) (k : Key) (v : β) : List (Key × β) :=
  if d.any (fun e => e.1 == k) then d.map (fun e => if e.1 == k then (k, v) else e)
  else d ++ [(k, v)]

/-! Decimal printing and parsing of Python integers.
str(v) for an int prints a minus sign followed by base-10 digits;
int(s) parses it back.  Used by both checkpoint backends. -/

def digitChar (d : Nat) : Char := Char.ofNat (48 + d)

def natToDec (n : Nat) : List Char :=
  if n = 0 then ['0'] else ((Nat.digits 10 n).reverse.map digitChar)

def pyStrOfInt (v : Int) : List Char :=
  if v < 0 then '-' :: natToDec v.natAbs else natToDec v.natAbs

def decVal (c : Char) : Nat := c.toNat - 48

def decToNat (s : List Char) : Nat :=
  Nat.ofDigits 10 ((s.map decVal).reverse)

def pyParseIntOpt (s : List Char) : Option Int :=
  if s.isEmpty then none
  else if s.headI = '-' then
    (if s.tail ≠ [] ∧ s.tail.all Char.isDigit then some (-(decToNat s.tail : Int)) else none)
  else
    (if s.all Char.isDigit then some ((decToNat s : Int)) else none)

/-! Round-trip lemmas for decimal printing/parsing. -/

theorem decVal_digitChar (d : Nat) (h : d < 10) : decVal (digitChar d) = d := by
  interval_cases d <;> decide

theorem isDigit_digitChar (d : Nat) (h : d < 10) : (digitChar d).isDigit = true := by
  interval_cases d <;> decide

theorem natToDec_ne_nil (n : Nat) : natToDec n ≠ [] := by
  unfold natToDec
  split
  · simp
  · next h =>
    have hne : Nat.digits 10 n ≠ [] := Nat.digits_ne_nil_iff_ne_zero.mpr h
    simp only [ne_eq, List.map_eq_nil_iff, List.reverse_eq_nil_iff]
    exact hne

theorem natToDec_all_digits (n : Nat) : (natToDec n).all Char.isDigit = true := by
  unfold natToDec
  split
  · decide
  · next h =>
    simp only [List.all_eq_true, List.mem_map, List.mem_reverse]
    rintro c ⟨d, hd, rfl⟩
    exact isDigit_digitChar d (Nat.digits_lt_base (by norm_num) hd)

theorem decToNat_natToDec (n : Nat) : decToNat (natToDec n) = n := by
  unfold natToDec
  split
  · next h => subst h; decide
  · next h =>
    unfold decToNat
    rw [List.map_map, List.map_reverse, List.reverse_reverse]
    have hmap : (Nat.digits 10 n).map (decVal ∘ digitChar) = (Nat.digits 10 n).map id := by
      apply List.map_congr_left
      intro d hd
      exact decVal_digitChar d (Nat.digits_lt_base (by norm_num) hd)
    rw [hmap, List.map_id, Nat.ofDigits_digits]

theorem natToDec_head_not_minus (n : Nat) (c : Char) (rest : List Char)
    (h : natToDec n = c :: rest) : c ≠ '-' := by
  intro hc
  have hall := natToDec_all_digits n
  rw [h] at hall
  simp only [List.all_cons, Bool.and_eq_true] at hall
  rw [hc] at hall
  exact absurd hall.1 (by decide)

theorem natToDec_isEmpty_false (n : Nat) : ¬((natToDec n).isEmpty = true) := by
  cases hd : natToDec n with
  | nil => exact absurd hd (natToDec_ne_nil n)
  | cons c rest => simp

theorem natToDec_headI_not_minus (n : Nat) : ¬((natToDec n).headI = '-') := by
  cases hd : natToDec n with
  | nil => exact absurd hd (natToDec_ne_nil n)
  | cons c rest => exact natToDec_head_not_minus n c rest hd

theorem pyParseIntOpt_pyStrOfInt (v : Int) : pyParseIntOpt (pyStrOfInt v) = some v := by
  unfold pyStrOfInt
  split
  · next hv =>
    unfold pyParseIntOpt
    simp only [List.isEmpty_cons, List.headI, List.tail_cons, if_false, Bool.false_eq_true,
      if_true]
    rw [if_pos ⟨natToDec_ne_nil v.natAbs, natToDec_all_digits v.natAbs⟩,
      decToNat_natToDec]
    have h2 : (-(v.natAbs : Int)) = v := by omega
    rw [h2]
  · next hv =>
    have hnn : 0 ≤ v := by omega
    unfold pyParseIntOpt
    rw [if_neg (natToDec_isEmpty_false v.natAbs),
      if_neg (natToDec_headI_not_minus v.natAbs),
      if_pos (natToDec_all_digits v.natAbs),
      decToNat_natToDec, Int.natAbs_of_nonneg hnn]

/-! Embedding of src/pgsync/checkpoint.py.

FileCheckpoint holds a cached value and a checkpoint file; set_value
rejects None before any write, otherwise writes str(value) and updates
the cache; get_value re-reads the file when it exists.  RedisCheckpoint
stores the decimal string under a single key. -/

structure FileCheckpointState where
  file : Option (List Char)
  cached : Option Int
deriving DecidableEq

def file_set_value (s : FileCheckpointState) (value : Option Int) :
    Except PyErr Unit × FileCheckpointState :=
  match value with
  | none => (Except.error PyErr.valueError, s)
  | some v => (Except.ok (), { file := some (pyStrOfInt v), cached := some v })

def file_get_value (s : FileCheckpointState) :
    Except PyErr (Option Int × FileCheckpointState) :=
  match s.file with
  | some content =>
    match pyParseIntOpt content with
    | some v => Except.ok (some v, { s with cached := some v })
    | none => Except.error PyErr.valueError
  | none => Except.ok (s.cached, s)

structure RedisCheckpointState where
  key : Option (List Char)
deriving DecidableEq

def redis_set_value (s : RedisCheckpointState) (value : Option Int) :
    Except PyErr Unit × RedisCheckpointState :=
  match value with
  | none => (Except.error PyErr.valueError, s)
  | some v => (Except.ok (), { key := some (pyStrOfInt v) })

def redis_get_value (s : RedisCheckpointState) : Except PyErr (Option Int) :=
  match s.key with
  | none => Except.ok none
  | some content =>
    match pyParseIntOpt content with
    | some v => Except.ok (some v)
    | none => Except.error PyErr.valueError

/-- C9: for both checkpoint backends, set_value with a nil value raises
ValueError and leaves the stored checkpoint state unchanged. -/
theorem checkpoint_set_none_raises (fs : FileCheckpointState) (rs : RedisCheckpointState) :
    file_set_value fs none = (Except.error PyErr.valueError, fs) ∧
    redis_set_value rs none = (Except.error PyErr.valueError, rs) :=
  ⟨rfl, rfl⟩

/-- C10: checkpoint round trip for the file backend: after set_value v
succeeds (for any integer v, negative included), get_value returns
exactly v. -/
theorem file_checkpoint_roundtrip (s : FileCheckpointState) (v : Int) :
    file_get_value (file_set_value s (some v)).2 =
      Except.ok (some v, { file := some (pyStrOfInt v), cached := some v }) := by
  show file_get_value { file := some (pyStrOfInt v), cached := some v } = _
  unfold file_get_value
  simp only [pyParseIntOpt_pyStrOfInt]

/-! Embedding of the sync-name derivation (Sync constructor, sync.py lines
103-106): lowercase the database, join with an underscore to the index,
drop every character outside 0-9A-Za-z_, and truncate to 63 characters. -/

def isNameChar (c : Char) : Bool :=
  (('0' ≤ c && c ≤ '9') || ('a' ≤ c && c ≤ 'z') || ('A' ≤ c && c ≤ 'Z') || c == '_')

def syncNameChars (database index : List Char) : List Char :=
  (((database.map Char.toLower) ++ ('_' :: index)).filter isNameChar).take 63

theorem syncNameChars_filter_ne_nil (database index : List Char) :
    ((database.map Char.toLower) ++ ('_' :: index)).filter isNameChar ≠ [] := by
  intro h
  have hmem : '_' ∈ (database.map Char.toLower) ++ ('_' :: index) := by
    simp
  have : '_' ∈ ((database.map Char.toLower) ++ ('_' :: index)).filter isNameChar :=
    List.mem_filter.mpr ⟨hmem, by decide⟩
  rw [h] at this
  exact absurd this (List.not_mem_nil _)

/-- C7: the derived sync name contains only characters in 0-9A-Za-z_, has
length between 1 and 63, and is a deterministic pure function of the
database and index inputs. -/
theorem sync_name_derivation (database index : List Char) :
    (∀ c ∈ syncNameChars database index, isNameChar c = true) ∧
    1 ≤ (syncNameChars database index).length ∧
    (syncNameChars database index).length ≤ 63 ∧
    (∀ database' index', database = database' → index = index' →
      syncNameChars database index = syncNameChars database' index') := by
  refine ⟨?_, ?_, ?_, ?_⟩
  · intro c hc
    have hf : c ∈ ((database.map Char.toLower) ++ ('_' :: index)).filter isNameChar :=
      List.mem_of_mem_take hc
    exact (List.mem_filter.mp hf).2
  · unfold syncNameChars
    rw [List.length_take]
    have := syncNameChars_filter_ne_nil database index
    have hlen : 0 < (((database.map Char.toLower) ++ ('_' :: index)).filter isNameChar).length :=
      List.length_pos.mpr this
    omega
  · unfold syncNameChars
    rw [List.length_take]
    omega
  · rintro d' i' rfl rfl
    rfl

/-- C7 witness at a concrete input. -/
theorem sync_name_derivation_witness :
    (∀ c ∈ syncNameChars ('M' :: 'y' :: '-' :: 'D' :: 'b' :: []) ('i' :: 'x' :: []),
      isNameChar c = true) ∧
    1 ≤ (syncNameChars ('M' :: 'y' :: '-' :: 'D' :: 'b' :: []) ('i' :: 'x' :: [])).length :=
  ⟨(sync_name_derivation ('M' :: 'y' :: '-' :: 'D' :: 'b' :: []) ('i' :: 'x' :: [])).1,
   (sync_name_derivation ('M' :: 'y' :: '-' :: 'D' :: 'b' :: []) ('i' :: 'x' :: [])).2.1⟩

/-! Embedding of the checkpoint advance in Sync._on_publish (sync.py lines
1205-1208): txids is the set of the batch payloads xmin values; when that
set equals the singleton set containing None, no checkpoint is written;
otherwise the checkpoint becomes min(min(txids), txid_current()) - 1.
Python evaluation of min over a set mixing None and integers, and min of
None against txid_current, raises TypeError; min of the empty set raises
ValueError. -/

def listMinD (l : List Int) : Except PyErr Int :=
  match l with
  | [] => Except.error PyErr.valueError
  | x :: xs => Except.ok (xs.foldl min x)

def pyMinXids (xids : List (Option Int)) : Except PyErr Int :=
  match xids with
  | [] => Except.error PyErr.valueError
  | _ :: _ =>
    if xids.any (fun x => x == none) then Except.error PyErr.typeError
    else listMinD (xids.filterMap id)

def on_publish_checkpoint (xmins : List (Option Int)) (txidCurrent : Int) :
    Except PyErr (Option Int) :=
  if xmins ≠ [] ∧ xmins.all (fun x => x == none) = true then Except.ok none
  else
    match pyMinXids xmins with
    | Except.error e => Except.error e
    | Except.ok m => Except.ok (some (min m txidCurrent - 1))

/-- C3 counterexample: a dequeued batch mixing a non-null and a null xmin
(one row event plus one TRUNCATE event) raises TypeError at the min
computation, so the checkpoint is neither written with
min(min(xmins), txid_current()) - 1 = 4 nor skipped, although not every
xmin in the batch is null. -/
theorem on_publish_mixed_batch_counterexample :
    on_publish_checkpoint [some 5, none] 10 = Except.error PyErr.typeError ∧
    on_publish_checkpoint [some 5, none] 10 ≠ Except.ok (some 4) ∧
    on_publish_checkpoint [some 5, none] 10 ≠ Except.ok none ∧
    ([some 5, none] : List (Option Int)).all (fun x => x == none) = false := by
  refine ⟨rfl, ?_, ?_, rfl⟩ <;> decide

/-- C3 amended: after a consumed batch, the checkpoint write is skipped
when every xmin of the (non-empty) batch is null; when no xmin is null
the checkpoint is written as min(min(xmins), txid_current()) - 1; a batch
mixing null and non-null xmins raises TypeError and writes nothing. -/
theorem on_publish_checkpoint_cases (xmins : List (Option Int)) (txid : Int) :
    (xmins ≠ [] → xmins.all (fun x => x == none) = true →
      on_publish_checkpoint xmins txid = Except.ok none) ∧
    (xmins ≠ [] → (∀ x ∈ xmins, x ≠ none) →
      ∃ m, listMinD (xmins.filterMap id) = Except.ok m ∧
        on_publish_checkpoint xmins txid = Except.ok (some (min m txid - 1))) ∧
    ((∃ x ∈ xmins, x = none) → (∃ y ∈ xmins, y ≠ none) →
      on_publish_checkpoint xmins txid = Except.error PyErr.typeError) := by
  refine ⟨?_, ?_, ?_⟩
  · intro hne hall
    unfold on_publish_checkpoint
    rw [if_pos ⟨hne, hall⟩]
  · intro hne hnn
    cases xmins with
    | nil => exact absurd rfl hne
    | cons x xs =>
      cases hv : x with
      | none => exact absurd hv (hnn x (List.mem_cons_self x xs))
      | some v =>
        subst hv
        have hanyf : ((some v :: xs).any (fun y => y == none)) = false := by
          simp only [List.any_eq_false, beq_iff_eq]
          intro y hy
          exact hnn y hy
        have hmin : pyMinXids (some v :: xs) = listMinD ((some v :: xs).filterMap id) := by
          unfold pyMinXids
          rw [hanyf]
          simp
        have hfm : (some v :: xs).filterMap id = v :: xs.filterMap id := by
          simp [List.filterMap_cons]
        refine ⟨(xs.filterMap id).foldl min v, ?_, ?_⟩
        · rw [hfm]; rfl
        · have hnotall : ¬((some v :: xs).all (fun y => y == none) = true) := by simp
          unfold on_publish_checkpoint
          rw [if_neg (fun hc => hnotall hc.2), hmin, hfm]
          rfl
  · rintro ⟨x, hx, hxn⟩ ⟨y, hy, hyn⟩
    have hnotall : ¬(xmins.all (fun z => z == none) = true) := by
      simp only [List.all_eq_true, beq_iff_eq]
      intro h
      exact hyn (h y hy)
    have hany : xmins.any (fun z => z == none) = true := by
      simp only [List.any_eq_true, beq_iff_eq]
      exact ⟨x, hx, hxn⟩
    cases xmins with
    | nil => exact absurd hx (List.not_mem_nil _)
    | cons z zs =>
      unfold on_publish_checkpoint
      rw [if_neg (fun hc => hnotall hc.2)]
      unfold pyMinXids
      rw [if_pos hany]

/-- C3 amended witness: a TRUNCATE-only batch skips the write, an
all-row batch writes min(min(xmins), txid_current()) - 1. -/
theorem on_publish_checkpoint_cases_witness :
    on_publish_checkpoint [none, none] 10 = Except.ok none ∧
    on_publish_checkpoint [some 5, some 7] 10 = Except.ok (some 4) := by
  constructor
  · exact (on_publish_checkpoint_cases [none, none] 10).1 (by decide) (by decide)
  · have h := (on_publish_checkpoint_cases [some 5, some 7] 10).2.1 (by decide)
      (by decide)
    obtain ⟨m, hm, hres⟩ := h
    have hm5 : m = 5 := by
      have h5 : listMinD (([some 5, some 7] : List (Option Int)).filterMap id) =
          Except.ok 5 := by decide
      rw [h5] at hm
      exact (Except.ok.injEq _ _).mp hm.symm
    rw [hres, hm5]
    decide

/-! Trace model of the two checkpoint writers.

Sync.pull (sync.py lines 1235-1256) samples txmax = txid_current() and,
after the forward sync and the bounded slot drain, stores
checkpoint = txmax or txid_current().  The consumer (_on_publish) stores
min(min(xmins), txid_current()) - 1 after every batch with a non-null
xmin.  A trace event records the txid_current() values a step observed. -/

inductive CkptEvent where
  | pullEv (txmax : Int) (txidCur : Int)
  | publishEv (xmins : List (Option Int)) (txidCur : Int)
deriving DecidableEq, Repr

def ckpt_step (c : Option Int) : CkptEvent → Except PyErr (Option Int)
  | CkptEvent.pullEv txmax txidCur =>
    Except.ok (some (if txmax ≠ 0 then txmax else txidCur))
  | CkptEvent.publishEv xmins txidCur =>
    match on_publish_checkpoint xmins txidCur with
    | Except.ok none => Except.ok c
    | Except.ok (some v) => Except.ok (some v)
    | Except.error e => Except.error e

def ckpt_trace (c : Option Int) : List CkptEvent → Except PyErr (List (Option Int))
  | [] => Except.ok []
  | e :: es =>
    match ckpt_step c e with
    | Except.error err => Except.error err
    | Except.ok c' =>
      match ckpt_trace c' es with
      | Except.error err => Except.error err
      | Except.ok rest => Except.ok (c' :: rest)

def ckptNonDecreasing : List (Option Int) → Bool
  | [] => true
  | [_] => true
  | a :: b :: rest =>
    (match a, b with
     | some x, some y => decide (x ≤ y)
     | _, _ => true) && ckptNonDecreasing (b :: rest)

/-- C4 counterexample: a successful pull at txid 100 stores checkpoint
100; a subsequently consumed batch holding one event with xmin 50 (queued
before the pull) stores min(50, 101) - 1 = 49, strictly below the
previously stored checkpoint, so the stored checkpoint value decreases
along this sequence. -/
theorem ckpt_monotonicity_counterexample :
    ckpt_trace none [CkptEvent.pullEv 100 100, CkptEvent.publishEv [some 50] 101] =
      Except.ok [some 100, some 49] ∧
    ckptNonDecreasing [some 100, some 49] = false := by
  constructor
  · rfl
  · decide

/-- C4 amended: the checkpoint is non-decreasing across successive
successful pull() calls whose observed txid_current values are positive
and non-decreasing; a consumed batch with a non-null xmin instead writes
min(min(xmins), txid_current()) - 1, which can be lower than the
previously stored checkpoint (forcing a safe re-sync), as the
counterexample shows. -/
theorem ckpt_pull_only_monotone (txs : List Int)
    (hpos : ∀ t ∈ txs, 0 < t) (hmono : txs.Chain' (fun a b => a ≤ b)) :
    ∀ c0 : Option Int,
      ckpt_trace c0 (txs.map (fun t => CkptEvent.pullEv t t)) =
        Except.ok (txs.map (fun t => some t)) ∧
      ckptNonDecreasing (txs.map (fun t => some t)) = true := by
  induction txs with
  | nil => intro c0; exact ⟨rfl, rfl⟩
  | cons t ts ih =>
    intro c0
    have hpos' : ∀ u ∈ ts, 0 < u := fun u hu => hpos u (List.mem_cons_of_mem _ hu)
    have hmono' : ts.Chain' (fun a b => a ≤ b) := (List.chain'_cons'.mp hmono).2
    have iht := ih hpos' hmono' (some t)
    constructor
    · simp only [List.map_cons, ckpt_trace, ckpt_step]
      rw [if_pos (by have := hpos t (List.mem_cons_self t ts); omega : t ≠ 0)]
      rw [iht.1]
    · cases ts with
      | nil => rfl
      | cons u us =>
        have hle : t ≤ u := (List.chain'_cons.mp hmono).1
        have iht2 := (ih hpos' hmono' (some t)).2
        simp only [List.map_cons] at iht2 ⊢
        unfold ckptNonDecreasing
        rw [iht2]
        simp [hle]

/-- C4 amended witness: two pulls at txids 3 then 5. -/
theorem ckpt_pull_only_monotone_witness :
    ckpt_trace none ([3, 5].map (fun t => CkptEvent.pullEv t t)) =
      Except.ok ([3, 5].map (fun t => some t)) ∧
    ckptNonDecreasing (([3, 5] : List Int).map (fun t => some t)) = true :=
  ckpt_pull_only_monotone [3, 5] (by decide)
    (by norm_num [List.chain'_cons, List.chain'_singleton]) none

/-! Embedding of the logical-slot access pattern.

Sync.logical_slot_changes (sync.py lines 324-427) loops: peek the slot
with bounds (txmin, txmax, upto_nchanges, upto_lsn); stop when the peek
returns no changes; otherwise process the rows and issue a destructive
get with the very same four bounds.  Sync._truncate_slots (lines
1272-1275) issues a destructive get with upto_nchanges = None and all
other bounds absent, with no preceding peek of its own.  A trace records
the slot operations in order; peekNonEmpty lists, per loop iteration,
whether the peek returned any changes. -/

structure SlotBounds where
  txmin : Option Int
  txmax : Option Int
  upto_nchanges : Option Int
  upto_lsn : Option (List Char)
deriving DecidableEq, Repr

inductive SlotOp where
  | peek (b : SlotBounds)
  | getOp (b : SlotBounds)
deriving DecidableEq, Repr

def logical_slot_changes_ops (b : SlotBounds) : List Bool → List SlotOp
  | [] => []
  | r :: rs =>
    if r then SlotOp.peek b :: SlotOp.getOp b :: logical_slot_changes_ops b rs
    else [SlotOp.peek b]

def truncate_slots_ops : List SlotOp :=
  [SlotOp.getOp { txmin := none, txmax := none, upto_nchanges := none, upto_lsn := none }]

def advancesMatchPeeks : List SlotOp → Bool
  | [] => true
  | SlotOp.getOp _ :: _ => false
  | [SlotOp.peek _] => true
  | SlotOp.peek b :: SlotOp.getOp b' :: rest =>
    (b == b') && advancesMatchPeeks rest
  | SlotOp.peek _ :: rest => advancesMatchPeeks rest

/-- C6 amended: within logical_slot_changes every destructive get uses
exactly the four bounds of the immediately preceding peek, for every
bounds value and every sequence of peek outcomes; the slot-truncation
worker additionally issues an unbounded get with no preceding peek, as
the counterexample shows. -/
theorem logical_slot_changes_bounds_match (b : SlotBounds) (rs : List Bool) :
    advancesMatchPeeks (logical_slot_changes_ops b rs) = true := by
  induction rs with
  | nil => rfl
  | cons r rs ih =>
    cases r with
    | false => rfl
    | true =>
      show advancesMatchPeeks
        (SlotOp.peek b :: SlotOp.getOp b :: logical_slot_changes_ops b rs) = true
      unfold advancesMatchPeeks
      rw [ih]
      simp

/-- C6 counterexample: a pull-time drain with bounds
(txmin 1, txmax 2, upto_nchanges 1000, upto_lsn 0/0) whose second peek is
empty, followed by the slot-truncation worker get (all bounds absent):
the final destructive get does not use the bounds of the immediately
preceding peek, refuting the universal claim over all advances. -/
theorem slot_truncate_bounds_counterexample :
    advancesMatchPeeks
      (logical_slot_changes_ops
        { txmin := some 1, txmax := some 2, upto_nchanges := some 1000,
          upto_lsn := some ('0' :: '/' :: '0' :: []) } [true, false] ++
       truncate_slots_ops) = false := by
  decide

/-! Embedding of the resolver (Sync._payloads and the per-operation
handlers, sync.py lines 429-901).

Payload values are JSON scalars (integers, strings, null).  The tree, the
query builder and the search client live outside src/, so they enter the
embedding as an environment of oracles: search models
SearchClient._search(index, table, fields) returning doc ids, searchAll
models the field-less call, getFK and getFKalt model
QueryBuilder.get_foreign_keys and QueryBuilder._get_foreign_keys keyed by
the parent and node names, and rootFkConstraint models
Payload.foreign_key_constraint restricted to the entry naming the root
node (modelled from the spec, base.py being outside src/). -/

inductive PyVal where
  | vint (n : Int)
  | vstr (s : List Char)
  | vnull
deriving DecidableEq, Repr

def PyVal.pystr : PyVal → List Char
  | PyVal.vint n => pyStrOfInt n
  | PyVal.vstr s => s
  | PyVal.vnull => 'N' :: 'o' :: 'n' :: 'e' :: []

def PyVal.truthy : PyVal → Bool
  | PyVal.vint n => decide (n ≠ 0)
  | PyVal.vstr s => !s.isEmpty
  | PyVal.vnull => false

structure Payload where
  tg_op : String
  table : String
  schema : String
  old : List (Key × PyVal)
  new : List (Key × PyVal)
  xmin : Option Int
deriving DecidableEq, Repr

/-- Modelled from the spec: derived data is new when non-empty, else old
(Payload lives in base.py, outside src/). -/
def Payload.data (p : Payload) : List (Key × PyVal) :=
  if p.new.isEmpty then p.old else p.new

/-- Modelled from the spec: the primary-key delimiter used for doc ids
(constants.py, outside src/) is the vertical bar. -/
def PRIMARY_KEY_DELIMITER : Char := '|'

/-- Modelled from the spec: TG_OP (constants.py, outside src/) holds the
four trigger operations. -/
def TG_OP : List String := ["INSERT", "UPDATE", "DELETE", "TRUNCATE"]

/-- Sync.get_doc_id (sync.py lines 314-322): join the stringified
primary-key values with the delimiter; raise when the list is empty. -/
def get_doc_id (primary_keys : List PyVal) : Except PyErr (List Char) :=
  if primary_keys.isEmpty then Except.error PyErr.primaryKeyNotFound
  else Except.ok (List.intercalate [PRIMARY_KEY_DELIMITER] (primary_keys.map PyVal.pystr))

structure NodeInfo where
  name : String
  table : String
  isRoot : Bool
  parentName : Option String
  parentTable : Option String
  pks : List Key
deriving DecidableEq, Repr

abbrev FKMap := List (String × List Key)

abbrev FilterRec := List (Key × PyVal)

abbrev Filters := List (String × List FilterRec)

instance : DecidableEq (List Filters) := instDecidableEqList

structure Env where
  index : String
  rootName : String
  rootTable : String
  rootPks : List Key
  tables : List String
  schemas : List String
  routing : Option Key
  legacyType : Bool
  useAsync : Bool
  search : String → List (Key × List PyVal) → List (List Char)
  searchAll : String → List (List Char)
  getFK : String → String → Except PyErr FKMap
  getFKalt : String → String → Except PyErr FKMap
  rootFkConstraint : Payload → Option (Key × PyVal)

structure BulkOp where
  docId : List Char
  docIndex : String
  opType : String
  routing : Option PyVal
  docType : Option String
deriving DecidableEq, Repr

structure BulkCall where
  docs : List BulkOp
  raiseOnException : Option Bool
  raiseOnError : Option Bool
deriving DecidableEq, Repr

def pyGetItem (m : List (Key × PyVal)) (k : Key) : Except PyErr PyVal :=
  match alookup m k with
  | some v => Except.ok v
  | none => Except.error PyErr.keyError

def pyGetItems (m : List (Key × PyVal)) (ks : List Key) : Except PyErr (List PyVal) :=
  ks.mapM (pyGetItem m)

def fkGet (fks : FKMap) (k : String) : Except PyErr (List Key) :=
  match alookup fks k with
  | some v => Except.ok v
  | none => Except.error PyErr.keyError

def ddAppend {β : Type} (d : List (Key × List β)) (k : Key) (x : β) : List (Key × List β) :=
  dictSet d k (((alookup d k).getD []) ++ [x])

def dictAppend {β : Type} (d : List (Key × List β)) (k : Key) (xs : List β) :
    Except PyErr (List (Key × List β)) :=
  match alookup d k with
  | none => Except.error PyErr.keyError
  | some cur => Except.ok (dictSet d k (cur ++ xs))

/-- For each enumerated root primary key, index into the split doc id,
building the where record used by the index-lookup resolvers. -/
def zipWhere (pks : List Key) (params : List (List Char)) : Except PyErr FilterRec :=
  pks.enum.mapM (fun ik =>
    match params.get? ik.1 with
    | some s => Except.ok (ik.2, PyVal.vstr s)
    | none => Except.error PyErr.indexError)

/-- Sync._root_primary_key_resolver (sync.py lines 429-450). -/
def root_primary_key_resolver (env : Env) (node : NodeInfo) (payload : Payload)
    (filters : List FilterRec) : Except PyErr (List FilterRec) := do
  let primaryValues ← pyGetItems payload.data node.pks
  let fields : List (Key × List PyVal) :=
    (node.pks.zip primaryValues).foldl (fun d kv => ddAppend d kv.1 kv.2) []
  (env.search node.table fields).foldlM (fun fs docId => do
    let whereRec ← zipWhere env.rootPks (docId.splitOn PRIMARY_KEY_DELIMITER)
    Except.ok (fs ++ [whereRec])) filters

/-- Sync._root_foreign_key_resolver (sync.py lines 452-488): the foreign
values come from payload.new.get (None when absent) and only truthy
values are collected into the search fields. -/
def root_foreign_key_resolver (env : Env) (node : NodeInfo) (payload : Payload)
    (foreignKeys : FKMap) (filters : List FilterRec) : Except PyErr (List FilterRec) := do
  let nodeCols ← fkGet foreignKeys node.name
  let foreignValues : List PyVal :=
    nodeCols.map (fun k => (alookup payload.new k).getD PyVal.vnull)
  let fields : List (Key × List PyVal) :=
    node.pks.foldl (fun d key =>
      foreignValues.foldl (fun d' value =>
        if value.truthy then ddAppend d' key value else d') d) []
  match node.parentTable with
  | none => Except.error PyErr.attributeError
  | some pt =>
    (env.search pt fields).foldlM (fun fs docId => do
      let whereRec ← zipWhere env.rootPks (docId.splitOn PRIMARY_KEY_DELIMITER)
      Except.ok (fs ++ [whereRec])) filters

/-- Sync._through_node_resolver (sync.py lines 490-505). -/
def through_node_resolver (env : Env) (payload : Payload)
    (filters : List FilterRec) : List FilterRec :=
  match env.rootFkConstraint payload with
  | some rv => filters ++ [[(rv.1, rv.2)]]
  | none => filters

/-- The try/except ForeignKeyError fallback around
query_builder.get_foreign_keys, as inlined at sync.py lines 531-540 and
645-655. -/
def get_foreign_keys_fb (env : Env) (parentName nodeName : String) : Except PyErr FKMap :=
  match env.getFK parentName nodeName with
  | Except.ok fks => Except.ok fks
  | Except.error PyErr.foreignKeyError => env.getFKalt parentName nodeName
  | Except.error e => Except.error e

/-- Sync._insert_op (sync.py lines 507-577).  Three branches: root node
(push the root primary-key tuples into the node-table slot), non-root
tree node (match shared foreign-key column names into the parent-table
slot, then run the root foreign-key resolver and the through-node
resolver, extending the root slot when anything was collected), and pure
through-table (reparent each payload onto the parent slot by foreign-key
position). -/
def insert_root_body (env : Env) (node : NodeInfo) (fs : Filters) (p : Payload) :
    Except PyErr Filters := do
  let primaryValues ← pyGetItems p.data env.rootPks
  dictAppend fs node.table [env.rootPks.zip primaryValues]

def insert_child_body (env : Env) (node : NodeInfo) (pn : String) (foreignKeys : FKMap)
    (acc : Filters × List FilterRec) (p : Payload) :
    Except PyErr (Filters × List FilterRec) := do
  let nodeCols ← fkGet foreignKeys node.name
  let parentCols ← fkGet foreignKeys pn
  let fs ← nodeCols.foldlM (fun fs2 nodeKey =>
    parentCols.foldlM (fun fs3 parentKey =>
      if nodeKey == parentKey then do
        let v ← pyGetItem p.data nodeKey
        match node.parentTable with
        | none => Except.error PyErr.attributeError
        | some pt => dictAppend fs3 pt [[(parentKey, v)]]
      else Except.ok fs3) fs2) acc.1
  let ef ← root_foreign_key_resolver env node p foreignKeys acc.2
  let ef := through_node_resolver env p ef
  Except.ok (fs, ef)

def insert_through_body (node : NodeInfo) (pn : String) (pt : String) (foreignKeys : FKMap)
    (fs : Filters) (p : Payload) : Except PyErr Filters := do
  let nodeCols ← fkGet foreignKeys node.name
  let parentCols ← fkGet foreignKeys pn
  nodeCols.enum.foldlM (fun fs2 ik =>
    match parentCols.get? ik.1 with
    | none => Except.error PyErr.indexError
    | some pcol => do
      let v ← pyGetItem p.data ik.2
      dictAppend fs2 pt [[(pcol, v)]]) fs

def insert_op (env : Env) (node : NodeInfo) (filters : Filters)
    (payloads : List Payload) : Except PyErr Filters :=
  if node.table ∈ env.tables then
    if node.isRoot then
      payloads.foldlM (insert_root_body env node) filters
    else
      match node.parentName with
      | none => Except.error PyErr.runtimeError
      | some pn => do
        let foreignKeys ← get_foreign_keys_fb env pn node.name
        let res ← payloads.foldlM (insert_child_body env node pn foreignKeys)
          (filters, ([] : List FilterRec))
        if res.2.isEmpty then Except.ok res.1
        else dictAppend res.1 env.rootTable res.2
  else
    match node.parentName, node.parentTable with
    | some pn, some pt => do
      let foreignKeys ← env.getFK pn node.name
      payloads.foldlM (insert_through_body node pn pt foreignKeys) filters
    | _, _ => Except.error PyErr.attributeError

/-- Sync._update_op (sync.py lines 579-664).  Root branch: per payload,
push the primary-key tuple of payload.data into the node-table slot; when
old holds values for as many root primary keys as new does and they
differ, add a bulk-delete op for the old doc id (the routing line indexes
the old-values list with the routing column name, a TypeError whenever
routing is configured); a single bulk call is issued when any doc was
collected.  Non-root branch: per payload, run the root primary-key
resolver and, when the node has a parent, the foreign-key lookup with
fallback plus the root foreign-key resolver, extending the root slot when
anything was collected. -/
def oldPkValues (env : Env) (p : Payload) : List PyVal :=
  env.rootPks.filterMap (alookup p.old)

def update_root_body (env : Env) (node : NodeInfo) (acc : Filters × List BulkOp)
    (p : Payload) : Except PyErr (Filters × List BulkOp) := do
  let primaryValues ← pyGetItems p.data node.pks
  let fs ← dictAppend acc.1 node.table [node.pks.zip primaryValues]
  let newValues ← pyGetItems p.new env.rootPks
  if (oldPkValues env p).length = newValues.length ∧ oldPkValues env p ≠ newValues then do
    let docId ← get_doc_id (oldPkValues env p)
    let routing ← match env.routing with
      | none => Except.ok (none : Option PyVal)
      | some _ => Except.error PyErr.typeError
    Except.ok (fs, acc.2 ++
      [{ docId := docId, docIndex := env.index, opType := "delete",
         routing := routing,
         docType := if env.legacyType then some "_doc" else none }])
  else Except.ok (fs, acc.2)

/-- The foreign-key half of the non-root UPDATE branch: when the node has
a parent, look up the foreign keys (with the ForeignKeyError fallback)
and run the root foreign-key resolver. -/
def update_child_fk_part (env : Env) (node : NodeInfo) (p : Payload)
    (f1 : List FilterRec) : Except PyErr (List FilterRec) :=
  match node.parentName with
  | some pn => do
    let foreignKeys ← get_foreign_keys_fb env pn node.name
    root_foreign_key_resolver env node p foreignKeys f1
  | none => Except.ok f1

def update_child_body (env : Env) (node : NodeInfo) (fs : Filters) (p : Payload) :
    Except PyErr Filters := do
  let f1 ← root_primary_key_resolver env node p []
  let f2 ← update_child_fk_part env node p f1
  if f2.isEmpty then Except.ok fs else dictAppend fs env.rootTable f2

def update_op (env : Env) (node : NodeInfo) (filters : Filters)
    (payloads : List Payload) : Except PyErr (Filters × List BulkCall) :=
  if node.isRoot then do
    let res ← payloads.foldlM (update_root_body env node) (filters, ([] : List BulkOp))
    if res.2.isEmpty then Except.ok (res.1, [])
    else Except.ok (res.1, [{ docs := res.2, raiseOnException := none, raiseOnError := none }])
  else do
    let fs ← payloads.foldlM (update_child_body env node) filters
    Except.ok (fs, [])

/-- Sync._delete_op (sync.py lines 666-719).  Root branch: one
bulk-delete op per payload whose id joins the root primary-key values of
payload.data, the filters argument untouched, and a single bulk call with
raise flags disabled in cooperative mode.  Non-root branch: per payload,
run the root primary-key resolver and extend the root slot when anything
was collected. -/
def delete_root_body (env : Env) (ds : List BulkOp) (p : Payload) :
    Except PyErr (List BulkOp) := do
  let primaryValues ← pyGetItems p.data env.rootPks
  let docId ← get_doc_id primaryValues
  let routing ← match env.routing with
    | none => Except.ok (none : Option PyVal)
    | some r => (pyGetItem p.data r).map some
  Except.ok (ds ++
    [{ docId := docId, docIndex := env.index, opType := "delete",
       routing := routing,
       docType := if env.legacyType then some "_doc" else none }])

def delete_child_body (env : Env) (node : NodeInfo) (fs : Filters) (p : Payload) :
    Except PyErr Filters := do
  let f1 ← root_primary_key_resolver env node p []
  if f1.isEmpty then Except.ok fs else dictAppend fs env.rootTable f1

def delete_op (env : Env) (node : NodeInfo) (filters : Filters)
    (payloads : List Payload) : Except PyErr (Filters × List BulkCall) :=
  if node.isRoot then do
    let docs ← payloads.foldlM (delete_root_body env) ([] : List BulkOp)
    if docs.isEmpty then Except.ok (filters, [])
    else
      let flag : Option Bool := if env.useAsync then some false else none
      Except.ok (filters, [{ docs := docs, raiseOnException := flag, raiseOnError := flag }])
  else do
    let fs ← payloads.foldlM (delete_child_body env node) filters
    Except.ok (fs, [])

/-- Sync._truncate_op (sync.py lines 721-750). -/
def truncate_op (env : Env) (node : NodeInfo) (filters : Filters) :
    Except PyErr (Filters × List BulkCall) :=
  if node.isRoot then
    let docs := (env.searchAll node.table).map (fun docId =>
      { docId := docId, docIndex := env.index, opType := "delete",
        routing := (none : Option PyVal),
        docType := if env.legacyType then some "_doc" else none })
    if docs.isEmpty then Except.ok (filters, [])
    else Except.ok (filters, [{ docs := docs, raiseOnException := none, raiseOnError := none }])
  else do
    let fs ← (env.searchAll node.table).foldlM (fun acc docId => do
      let whereRec ← zipWhere env.rootPks (docId.splitOn PRIMARY_KEY_DELIMITER)
      Except.ok (acc ++ [whereRec])) ([] : List FilterRec)
    if fs.isEmpty then Except.ok (filters, [])
    else do
      let f ← dictAppend filters env.rootTable fs
      Except.ok (f, [])

/-- Modelled from the spec: chunks (utils.py, outside src/) yields the
successive size-element slices of a list.  chunksFuel m produces slices
of m + 1 elements, structurally recursing on a fuel bound that the
initial list length always satisfies (each step consumes at least the
head element). -/
def chunksFuel {α : Type} (m : Nat) : Nat → List α → List (List α)
  | _, [] => []
  | 0, _ :: _ => []
  | fuel + 1, x :: xs => (x :: xs.take m) :: chunksFuel m fuel (xs.drop m)

def chunks {α : Type} (l : List α) (size : Nat) : List (List α) :=
  chunksFuel (size - 1) l.length l

theorem chunks_nil {α : Type} (size : Nat) : chunks ([] : List α) size = [] := rfl

theorem chunks_cons {α : Type} (x : α) (xs : List α) (size : Nat) :
    chunks (x :: xs) size =
      (x :: xs.take (size - 1)) :: chunksFuel (size - 1) xs.length (xs.drop (size - 1)) :=
  rfl

theorem chunks_eq_nil_iff {α : Type} (l : List α) (size : Nat) :
    chunks l size = [] ↔ l = [] := by
  cases l with
  | nil => simp [chunks_nil]
  | cons x xs => rw [chunks_cons]; simp

theorem chunksFuel_mem_ne_nil {α : Type} (m : Nat) :
    ∀ (fuel : Nat) (l : List α) (c : List α), c ∈ chunksFuel m fuel l → c ≠ [] := by
  intro fuel
  induction fuel with
  | zero =>
    intro l c hc
    cases l with
    | nil => exact absurd hc (List.not_mem_nil c)
    | cons x xs => exact absurd hc (List.not_mem_nil c)
  | succ fuel ih =>
    intro l c hc
    cases l with
    | nil => exact absurd hc (List.not_mem_nil c)
    | cons x xs =>
      rcases List.mem_cons.mp hc with h | h
      · subst h; simp
      · exact ih (xs.drop m) c h

theorem chunks_mem_ne_nil {α : Type} (l : List α) (size : Nat) (c : List α)
    (hc : c ∈ chunks l size) : c ≠ [] :=
  chunksFuel_mem_ne_nil (size - 1) l.length l c hc

/-- The sync call argument built from the dict literal of one, two or
three chunk slots (later keys override earlier equal ones, as in a Python
dict literal). -/
def sync_call_1 (env : Env) (l1 : List FilterRec) : Filters :=
  dictSet [] env.rootTable l1

def sync_call_2 (env : Env) (node : NodeInfo) (l1 l2 : List FilterRec) : Filters :=
  dictSet (dictSet [] env.rootTable l1) node.table l2

def sync_call_3 (env : Env) (node : NodeInfo) (pt : String)
    (l1 l2 l3 : List FilterRec) : Filters :=
  dictSet (dictSet (dictSet [] env.rootTable l1) node.table l2) pt l3

/-- The per-root-chunk inner loops of the filter execution. -/
def exec_inner (env : Env) (node : NodeInfo) (chunkSize : Nat) (filters : Filters)
    (l1 : List FilterRec) : List Filters :=
  match alookup filters node.table with
  | some (x :: xs) =>
    (chunks (x :: xs) chunkSize).flatMap (fun l2 =>
      if node.isRoot = false then
        match node.parentTable.bind
            (fun pt => (alookup filters pt).map (fun s => (pt, s))) with
        | some (pt, y :: ys) =>
          (chunks (y :: ys) chunkSize).map (fun l3 => sync_call_3 env node pt l1 l2 l3)
        | _ => [sync_call_2 env node l1 l2]
      else [sync_call_2 env node l1 l2])
  | _ => [sync_call_1 env l1]

/-- The filter execution tail of Sync._payloads (sync.py lines 847-901):
when any slot value is non-empty, chunk the root slot and, per root
chunk, the node slot when truthy and, for a non-root node, the parent
slot when truthy, and call sync once per chunk combination with the dict
literal of the chunks.  Each returned Filters value is one sync call
argument.  A missing root-table key would make chunks receive None (a
TypeError).  In _payloads a non-root node always has a parent table (the
filter dict construction dereferences it beforehand), so a missing
parent is treated as an absent slot here. -/
def filters_exec (env : Env) (node : NodeInfo) (chunkSize : Nat) (filters : Filters) :
    Except PyErr (List Filters) :=
  if filters.any (fun kv => !kv.2.isEmpty) then
    match alookup filters env.rootTable with
    | none => Except.error PyErr.typeError
    | some rootSlot =>
      Except.ok ((chunks rootSlot chunkSize).flatMap (exec_inner env node chunkSize filters))
  else Except.ok []

/-- The op-dispatch tail of Sync._payloads: the four sequential tg_op
tests (the Python loop variable pl is the last payload of the run)
followed by the filter execution. -/
def dispatch_ops (env : Env) (node : NodeInfo) (chunkSize : Nat)
    (payloads : List Payload) (pl : Payload) (f1 : Filters) :
    Except PyErr (List BulkCall × List Filters) := do
  let st1 ← if pl.tg_op == "INSERT" then
      (insert_op env node f1 payloads).map (fun f => (f, ([] : List BulkCall)))
    else Except.ok (f1, ([] : List BulkCall))
  let st2 ← if pl.tg_op == "UPDATE" then
      (update_op env node st1.1 payloads).map (fun r => (r.1, st1.2 ++ r.2))
    else Except.ok st1
  let st3 ← if pl.tg_op == "DELETE" then
      (delete_op env node st2.1 payloads).map (fun r => (r.1, st2.2 ++ r.2))
    else Except.ok st2
  let st4 ← if pl.tg_op == "TRUNCATE" then
      (truncate_op env node st3.1).map (fun r => (r.1, st3.2 ++ r.2))
    else Except.ok st3
  let calls ← filters_exec env node chunkSize st4.1
  Except.ok (st4.2, calls)

/-- Sync._payloads (sync.py lines 752-901), driven by a run of payloads
with one tg_op and table.  The node argument stands for
tree.get_node(payload.table, payload.schema).  An empty run raises
(payloads[0]); an unknown tg_op raises InvalidTGOPError; a table or
schema outside the tree yields nothing; a non-TRUNCATE payload whose data
misses a primary key of the node raises.  Returns the bulk calls issued
inside the op handlers and the sync call arguments. -/
def payloads_run (env : Env) (node : NodeInfo) (chunkSize : Nat) :
    List Payload → Except PyErr (List BulkCall × List Filters)
  | [] => Except.error PyErr.indexError
  | p0 :: rest =>
    if p0.tg_op ∈ TG_OP then
      if p0.table ∈ env.tables ∧ p0.schema ∈ env.schemas then do
        let _ ← (p0 :: rest).mapM (fun p =>
          if p.data.isEmpty then Except.ok ()
          else if node.pks.all (fun k => (alookup p.data k).isSome) then Except.ok ()
          else Except.error PyErr.runtimeError)
        let f0 : Filters := dictSet (dictSet [] node.table []) env.rootTable []
        let f1 ← if node.isRoot then Except.ok f0
          else match node.parentTable with
            | some pt => Except.ok (dictSet f0 pt [])
            | none => Except.error PyErr.attributeError
        dispatch_ops env node chunkSize (p0 :: rest) (rest.getLastD p0) f1
      else Except.ok ([], [])
    else Except.error PyErr.invalidTGOP

/-! Supporting lemmas about lookups, dict updates and monadic folds. -/

theorem except_bind_ok {ε α β : Type} (a : α) (f : α → Except ε β) :
    (Except.ok a >>= f) = f a := rfl

theorem except_bind_err {ε α β : Type} (e : ε) (f : α → Except ε β) :
    ((Except.error e : Except ε α) >>= f) = Except.error e := rfl

theorem alookup_cons_pos {β : Type} (e : Key × β) (d : List (Key × β)) (k : Key)
    (he : (e.1 == k) = true) : alookup (e :: d) k = some e.2 := by
  simp [alookup, List.find?_cons, he]

theorem alookup_cons_neg {β : Type} (e : Key × β) (d : List (Key × β)) (k : Key)
    (he : (e.1 == k) = false) : alookup (e :: d) k = alookup d k := by
  simp [alookup, List.find?_cons, he]

theorem dictSet_nil {β : Type} (k : Key) (v : β) :
    dictSet ([] : List (Key × β)) k v = [(k, v)] := rfl

theorem dictSet_cons_pos {β : Type} (e : Key × β) (d : List (Key × β)) (k : Key) (v : β)
    (he : (e.1 == k) = true) :
    dictSet (e :: d) k v =
      (k, v) :: d.map (fun x => if x.1 == k then (k, v) else x) := by
  unfold dictSet
  rw [if_pos (by simp only [List.any_cons, he, Bool.true_or])]
  simp only [List.map_cons, he, if_true]

theorem dictSet_cons_neg {β : Type} (e : Key × β) (d : List (Key × β)) (k : Key) (v : β)
    (he : (e.1 == k) = false) :
    dictSet (e :: d) k v = e :: dictSet d k v := by
  unfold dictSet
  by_cases hd : (d.any (fun x => x.1 == k)) = true
  · rw [if_pos (by simp only [List.any_cons, he, hd, Bool.false_or]),
      if_pos hd]
    simp only [List.map_cons, he, if_false, Bool.false_eq_true]
  · rw [if_neg (by simp only [List.any_cons, he, Bool.false_or, Bool.false_eq_true]; simpa using hd),
      if_neg hd]
    rfl

theorem alookup_map_override {β : Type} (d : List (Key × β)) (k k' : Key) (v : β)
    (hne : (k == k') = false) :
    alookup (d.map (fun x => if x.1 == k then (k, v) else x)) k' = alookup d k' := by
  induction d with
  | nil => rfl
  | cons e d ih =>
    by_cases he : (e.1 == k) = true
    · have he1 : e.1 = k := by simpa using he
      have hek : (e.1 == k') = false := by
        simp only [he1]
        exact hne
      simp only [List.map_cons, he, if_true]
      rw [alookup_cons_neg _ _ _ hne, alookup_cons_neg _ _ _ hek]
      exact ih
    · have he' : (e.1 == k) = false := by simpa using he
      simp only [List.map_cons, he', if_false, Bool.false_eq_true]
      by_cases hek : (e.1 == k') = true
      · rw [alookup_cons_pos _ _ _ hek, alookup_cons_pos _ _ _ hek]
      · have hek' : (e.1 == k') = false := by simpa using hek
        rw [alookup_cons_neg _ _ _ hek', alookup_cons_neg _ _ _ hek']
        exact ih

theorem alookup_dictSet_self {β : Type} (d : List (Key × β)) (k : Key) (v : β) :
    alookup (dictSet d k v) k = some v := by
  induction d with
  | nil => rw [dictSet_nil, alookup_cons_pos _ _ _ (by simp)]
  | cons e d ih =>
    by_cases he : (e.1 == k) = true
    · rw [dictSet_cons_pos _ _ _ _ he, alookup_cons_pos _ _ _ (by simp)]
    · have he' : (e.1 == k) = false := by simpa using he
      rw [dictSet_cons_neg _ _ _ _ he', alookup_cons_neg _ _ _ he']
      exact ih

theorem alookup_dictSet_other {β : Type} (d : List (Key × β)) (k k' : Key) (v : β)
    (hne : (k == k') = false) :
    alookup (dictSet d k v) k' = alookup d k' := by
  induction d with
  | nil =>
    rw [dictSet_nil, alookup_cons_neg _ _ _ hne]
  | cons e d ih =>
    by_cases he : (e.1 == k) = true
    · have he1 : e.1 = k := by simpa using he
      have hek : (e.1 == k') = false := by
        simp only [he1]
        exact hne
      rw [dictSet_cons_pos _ _ _ _ he, alookup_cons_neg _ _ _ hne,
        alookup_map_override _ _ _ _ hne, alookup_cons_neg _ _ _ hek]
    · have he' : (e.1 == k) = false := by simpa using he
      rw [dictSet_cons_neg _ _ _ _ he']
      by_cases hek : (e.1 == k') = true
      · rw [alookup_cons_pos _ _ _ hek, alookup_cons_pos _ _ _ hek]
      · have hek' : (e.1 == k') = false := by simpa using hek
        rw [alookup_cons_neg _ _ _ hek', alookup_cons_neg _ _ _ hek']
        exact ih

theorem dictAppend_of_lookup {β : Type} (d : List (Key × List β)) (k : Key)
    (cur : List β) (xs : List β) (h : alookup d k = some cur) :
    dictAppend d k xs = Except.ok (dictSet d k (cur ++ xs)) := by
  unfold dictAppend
  rw [h]

theorem pyGetItems_ok (m : List (Key × PyVal)) (ks : List Key)
    (h : ∀ k ∈ ks, (alookup m k).isSome) :
    pyGetItems m ks = Except.ok (ks.filterMap (alookup m)) := by
  induction ks with
  | nil => rfl
  | cons k ks ih =>
    have hk := h k (List.mem_cons_self k ks)
    obtain ⟨v, hv⟩ := Option.isSome_iff_exists.mp hk
    have ihh := ih (fun a ha => h a (List.mem_cons_of_mem _ ha))
    unfold pyGetItems at ihh ⊢
    rw [List.mapM_cons]
    show (pyGetItem m k >>= fun v => ks.mapM (pyGetItem m) >>= fun vs =>
      pure (v :: vs)) = _
    rw [show pyGetItem m k = Except.ok v from by unfold pyGetItem; rw [hv],
      except_bind_ok, ihh, except_bind_ok]
    rw [List.filterMap_cons, hv]
    rfl

theorem filterMap_length_of_all {α β : Type} (f : α → Option β) (ks : List α)
    (h : ∀ k ∈ ks, (f k).isSome) : (ks.filterMap f).length = ks.length := by
  induction ks with
  | nil => rfl
  | cons k ks ih =>
    obtain ⟨v, hv⟩ := Option.isSome_iff_exists.mp (h k (List.mem_cons_self k ks))
    rw [List.filterMap_cons, hv]
    simp only [List.length_cons]
    rw [ih (fun a ha => h a (List.mem_cons_of_mem _ ha))]

theorem filterMap_length_eq_iff {α β : Type} (f : α → Option β) (ks : List α) :
    (ks.filterMap f).length = ks.length ↔ ∀ k ∈ ks, (f k).isSome := by
  constructor
  · intro h
    induction ks with
    | nil => intro k hk; exact absurd hk (List.not_mem_nil k)
    | cons k ks ih =>
      cases hf : f k with
      | none =>
        rw [List.filterMap_cons, hf] at h
        have hle := List.length_filterMap_le f ks
        simp only [List.length_cons] at h
        omega
      | some v =>
        rw [List.filterMap_cons, hf] at h
        simp only [List.length_cons] at h
        intro a ha
        rcases List.mem_cons.mp ha with rfl | ha'
        · simp [hf]
        · exact ih (by omega) a ha'
  · exact filterMap_length_of_all f ks

/-! Development for the root DELETE path. -/

def rootPkValues (env : Env) (p : Payload) : List PyVal :=
  env.rootPks.filterMap (alookup p.data)

def deleteDocOf (env : Env) (p : Payload) : BulkOp :=
  { docId := List.intercalate [PRIMARY_KEY_DELIMITER] ((rootPkValues env p).map PyVal.pystr),
    docIndex := env.index, opType := "delete", routing := none,
    docType := if env.legacyType then some "_doc" else none }

def asyncFlag (env : Env) : Option Bool := if env.useAsync then some false else none

theorem get_doc_id_ok (vals : List PyVal) (h : vals ≠ []) :
    get_doc_id vals =
      Except.ok (List.intercalate [PRIMARY_KEY_DELIMITER] (vals.map PyVal.pystr)) := by
  unfold get_doc_id
  rw [if_neg (by simpa using h)]

theorem rootPkValues_ne_nil (env : Env) (p : Payload) (hpkne : env.rootPks ≠ [])
    (hpk : ∀ k ∈ env.rootPks, (alookup p.data k).isSome) :
    rootPkValues env p ≠ [] := by
  intro hcon
  have hlen := filterMap_length_of_all (alookup p.data) env.rootPks hpk
  unfold rootPkValues at hcon
  rw [hcon] at hlen
  have := List.length_pos.mpr hpkne
  simp only [List.length_nil] at hlen
  omega

theorem delete_root_body_ok (env : Env) (p : Payload)
    (hr : env.routing = none) (hpkne : env.rootPks ≠ [])
    (hpk : ∀ k ∈ env.rootPks, (alookup p.data k).isSome) (ds : List BulkOp) :
    delete_root_body env ds p = Except.ok (ds ++ [deleteDocOf env p]) := by
  have hvne : List.filterMap (alookup p.data) env.rootPks ≠ [] :=
    rootPkValues_ne_nil env p hpkne hpk
  unfold delete_root_body
  rw [pyGetItems_ok _ _ hpk, except_bind_ok, get_doc_id_ok _ hvne, except_bind_ok, hr]
  rfl

theorem foldlM_append_one {α β : Type} (body : List β → α → Except PyErr (List β))
    (g : α → β) (l : List α)
    (h : ∀ a ∈ l, ∀ ds, body ds a = Except.ok (ds ++ [g a])) :
    ∀ ds, l.foldlM body ds = Except.ok (ds ++ l.map g) := by
  induction l with
  | nil => intro ds; rw [List.foldlM_nil]; simp only [List.map_nil, List.append_nil]; rfl
  | cons a l ih =>
    intro ds
    rw [List.foldlM_cons, h a (List.mem_cons_self a l) ds, except_bind_ok,
      ih (fun x hx ds' => h x (List.mem_cons_of_mem _ hx) ds') (ds ++ [g a])]
    simp

theorem delete_op_root (env : Env) (node : NodeInfo) (payloads : List Payload)
    (hroot : node.isRoot = true) (hne : payloads ≠ [])
    (hrouting : env.routing = none) (hpkne : env.rootPks ≠ [])
    (hpk : ∀ p ∈ payloads, ∀ k ∈ env.rootPks, (alookup p.data k).isSome) :
    ∀ f : Filters, delete_op env node f payloads =
      Except.ok (f, [{ docs := payloads.map (deleteDocOf env),
                       raiseOnException := asyncFlag env,
                       raiseOnError := asyncFlag env }]) := by
  intro f
  have hfold := foldlM_append_one (delete_root_body env) (deleteDocOf env) payloads
    (fun p hp ds => delete_root_body_ok env p hrouting hpkne (hpk p hp) ds) []
  have hmapne : (payloads.map (deleteDocOf env)).isEmpty = false := by
    cases payloads with
    | nil => exact absurd rfl hne
    | cons a l => simp
  unfold delete_op
  rw [if_pos hroot, hfold, except_bind_ok]
  simp only [List.nil_append]
  rw [if_neg (by simp [hmapne])]
  rfl

theorem getLastD_mem_cons' {α : Type} (l : List α) (a : α) : l.getLastD a ∈ a :: l := by
  induction l generalizing a with
  | nil => simp [List.getLastD]
  | cons b l ih =>
    rw [List.getLastD_cons]
    rcases List.mem_cons.mp (ih b) with h | h
    · rw [h]
      exact List.mem_cons_of_mem a (List.mem_cons_self b l)
    · exact List.mem_cons_of_mem a (List.mem_cons_of_mem b h)

theorem payloads_check_ok (node : NodeInfo) (l : List Payload)
    (h : ∀ p ∈ l, node.pks.all (fun k => (alookup p.data k).isSome) = true) :
    l.mapM (fun p =>
      if p.data.isEmpty then Except.ok ()
      else if node.pks.all (fun k => (alookup p.data k).isSome) then Except.ok ()
      else Except.error PyErr.runtimeError) = Except.ok (l.map (fun _ => ())) := by
  induction l with
  | nil => rfl
  | cons p l ih =>
    rw [List.mapM_cons]
    have hbody : (if p.data.isEmpty then Except.ok ()
        else if node.pks.all (fun k => (alookup p.data k).isSome) then Except.ok ()
        else Except.error PyErr.runtimeError) = Except.ok () := by
      by_cases hd : p.data.isEmpty = true
      · rw [if_pos hd]
      · rw [if_neg hd, if_pos (h p (List.mem_cons_self p l))]
    rw [hbody]
    show (Except.ok () >>= fun u => l.mapM _ >>= fun us => pure (u :: us)) = _
    rw [except_bind_ok, ih (fun q hq => h q (List.mem_cons_of_mem _ hq)), except_bind_ok]
    rfl

theorem initial_root_filters (rt : String) :
    dictSet (dictSet ([] : Filters) rt []) rt [] = [(rt, [])] := by
  rw [dictSet_nil, dictSet_cons_pos _ _ _ _ (by simp)]
  simp

theorem except_map_ok {ε α β : Type} (f : α → β) (a : α) :
    Except.map f (Except.ok a : Except ε α) = Except.ok (f a) := rfl

theorem dispatch_ops_delete (env : Env) (node : NodeInfo) (chunkSize : Nat)
    (payloads : List Payload) (pl : Payload) (f1 : Filters)
    (hpl : pl.tg_op = "DELETE")
    (f2 : Filters) (bc : List BulkCall)
    (hdel : delete_op env node f1 payloads = Except.ok (f2, bc))
    (calls : List Filters)
    (hexec : filters_exec env node chunkSize f2 = Except.ok calls) :
    dispatch_ops env node chunkSize payloads pl f1 = Except.ok (bc, calls) := by
  unfold dispatch_ops
  rw [hpl]
  simp only [show (("DELETE" : String) == "INSERT") = false from by decide,
    show (("DELETE" : String) == "UPDATE") = false from by decide,
    show (("DELETE" : String) == "DELETE") = true from by decide,
    show (("DELETE" : String) == "TRUNCATE") = false from by decide,
    Bool.false_eq_true, if_false, if_true, except_bind_ok]
  rw [hdel, except_map_ok, except_bind_ok]
  simp [hexec, except_bind_ok]

theorem payloads_run_cons_root (env : Env) (node : NodeInfo) (chunkSize : Nat)
    (p0 : Payload) (rest : List Payload)
    (hroot : node.isRoot = true) (hnodetab : node.table = env.rootTable)
    (htg : p0.tg_op ∈ TG_OP) (htab : p0.table ∈ env.tables) (hsch : p0.schema ∈ env.schemas)
    (hcheck : ∀ p ∈ p0 :: rest, node.pks.all (fun k => (alookup p.data k).isSome) = true) :
    payloads_run env node chunkSize (p0 :: rest) =
      dispatch_ops env node chunkSize (p0 :: rest) (rest.getLastD p0)
        [(env.rootTable, [])] := by
  rw [payloads_run]
  rw [if_pos htg, if_pos ⟨htab, hsch⟩, payloads_check_ok node (p0 :: rest) hcheck,
    except_bind_ok, hnodetab, initial_root_filters, if_pos hroot, except_bind_ok]

theorem filters_exec_all_empty (env : Env) (node : NodeInfo) (chunkSize : Nat) :
    filters_exec env node chunkSize [(env.rootTable, [])] = Except.ok [] := by
  unfold filters_exec
  rw [if_neg (by simp)]

/-- C1: for a run of DELETE payloads on the root table, the resolver
emits exactly one bulk-delete op per payload whose doc id joins that
payload root primary-key values with the delimiter, issued as a single
bulk call; the filter set passed in is returned untouched, and the full
run produces no sync call (no filter-based scan). -/
theorem delete_root_claim (env : Env) (node : NodeInfo) (chunkSize : Nat)
    (payloads : List Payload)
    (hne : payloads ≠ [])
    (hop : ∀ p ∈ payloads, p.tg_op = "DELETE")
    (htab : ∀ p ∈ payloads, p.table = env.rootTable)
    (hsch : ∀ p ∈ payloads, p.schema ∈ env.schemas)
    (hroot : node.isRoot = true)
    (hnodetab : node.table = env.rootTable)
    (hpks : node.pks = env.rootPks)
    (hin : env.rootTable ∈ env.tables)
    (hpk : ∀ p ∈ payloads, ∀ k ∈ env.rootPks, (alookup p.data k).isSome)
    (hpkne : env.rootPks ≠ [])
    (hrouting : env.routing = none) :
    (∀ f : Filters, delete_op env node f payloads =
        Except.ok (f, [{ docs := payloads.map (deleteDocOf env),
                         raiseOnException := asyncFlag env,
                         raiseOnError := asyncFlag env }])) ∧
    payloads_run env node chunkSize payloads =
      Except.ok ([{ docs := payloads.map (deleteDocOf env),
                    raiseOnException := asyncFlag env,
                    raiseOnError := asyncFlag env }], []) := by
  have hdel := delete_op_root env node payloads hroot hne hrouting hpkne hpk
  refine ⟨hdel, ?_⟩
  cases payloads with
  | nil => exact absurd rfl hne
  | cons p0 rest =>
    have hop0 : p0.tg_op = "DELETE" := hop p0 (List.mem_cons_self p0 rest)
    have hpl : (rest.getLastD p0).tg_op = "DELETE" :=
      hop (rest.getLastD p0) (getLastD_mem_cons' rest p0)
    rw [payloads_run_cons_root env node chunkSize p0 rest hroot hnodetab
      (by rw [hop0]; decide)
      (by rw [htab p0 (List.mem_cons_self p0 rest)]; exact hin)
      (hsch p0 (List.mem_cons_self p0 rest))
      (fun p hp => by
        rw [hpks]
        simp only [List.all_eq_true]
        exact fun k hk => hpk p hp k hk)]
    exact dispatch_ops_delete env node chunkSize (p0 :: rest) (rest.getLastD p0)
      [(env.rootTable, [])] hpl [(env.rootTable, [])] _ (hdel [(env.rootTable, [])])
      [] (filters_exec_all_empty env node chunkSize)

/-! Concrete instances used by the witnesses and counterexamples. -/

def envW : Env :=
  { index := "bookidx", rootName := "book", rootTable := "book", rootPks := ["id"],
    tables := ["book", "author"], schemas := ["public"], routing := none,
    legacyType := false, useAsync := false,
    search := fun _ _ => [], searchAll := fun _ => [],
    getFK := fun _ _ => Except.error PyErr.foreignKeyError,
    getFKalt := fun _ _ => Except.error PyErr.foreignKeyError,
    rootFkConstraint := fun _ => none }

def nodeW : NodeInfo :=
  { name := "book", table := "book", isRoot := true, parentName := none,
    parentTable := none, pks := ["id"] }

def payloadW : Payload :=
  { tg_op := "DELETE", table := "book", schema := "public",
    old := [("id", PyVal.vint 8)], new := [], xmin := some 103 }

/-- C1 witness: one DELETE payload on the root table book with id 8. -/
theorem delete_root_claim_witness :
    delete_op envW nodeW [] [payloadW] =
      Except.ok (([] : Filters),
        [{ docs := [payloadW].map (deleteDocOf envW),
           raiseOnException := asyncFlag envW, raiseOnError := asyncFlag envW }]) ∧
    payloads_run envW nodeW 500 [payloadW] =
      Except.ok ([{ docs := [payloadW].map (deleteDocOf envW),
                    raiseOnException := asyncFlag envW,
                    raiseOnError := asyncFlag envW }], []) :=
  ⟨(delete_root_claim envW nodeW 500 [payloadW] (by decide) (by decide) (by decide)
      (by decide) rfl rfl rfl (by decide) (by decide) (by decide) rfl).1 [],
   (delete_root_claim envW nodeW 500 [payloadW] (by decide) (by decide) (by decide)
      (by decide) rfl rfl rfl (by decide) (by decide) (by decide) rfl).2⟩

/-! Development for the root UPDATE path. -/

def newPkValues (env : Env) (p : Payload) : List PyVal :=
  env.rootPks.filterMap (alookup p.new)

def newPkRecord (env : Env) (p : Payload) : FilterRec :=
  env.rootPks.zip (newPkValues env p)

/-- The old-id delete op emitted by the root UPDATE branch: present
exactly when old holds every root primary key and the old values differ
from the new ones. -/
def oldDeleteDoc (env : Env) (p : Payload) : Option BulkOp :=
  if (env.rootPks.all (fun k => (alookup p.old k).isSome)) = true ∧
      oldPkValues env p ≠ newPkValues env p then
    some { docId := List.intercalate [PRIMARY_KEY_DELIMITER]
             ((oldPkValues env p).map PyVal.pystr),
           docIndex := env.index, opType := "delete", routing := none,
           docType := if env.legacyType then some "_doc" else none }
  else none

def bulkOfDocs (docs : List BulkOp) : List BulkCall :=
  if docs.isEmpty then []
  else [{ docs := docs, raiseOnException := none, raiseOnError := none }]

theorem alookup_isSome_ne_nil {β : Type} (m : List (Key × β)) (k : Key)
    (h : (alookup m k).isSome) : m ≠ [] := by
  intro hm
  rw [hm] at h
  exact absurd h (by simp [alookup])

theorem data_eq_new (p : Payload) (h : p.new ≠ []) : p.data = p.new := by
  unfold Payload.data
  rw [if_neg (by simpa using h)]

theorem update_root_body_ok (env : Env) (node : NodeInfo) (p : Payload)
    (htab : node.table = env.rootTable) (hpks : node.pks = env.rootPks)
    (hroute : env.routing = none) (hpkne : env.rootPks ≠ [])
    (hnew : ∀ k ∈ env.rootPks, (alookup p.new k).isSome)
    (fs : Filters) (docs : List BulkOp) (cur : List FilterRec)
    (hcur : alookup fs env.rootTable = some cur) :
    update_root_body env node (fs, docs) p =
      Except.ok (dictSet fs env.rootTable (cur ++ [newPkRecord env p]),
        docs ++ (oldDeleteDoc env p).toList) := by
  obtain ⟨k0, hk0⟩ := List.exists_mem_of_ne_nil env.rootPks hpkne
  have hnewne : p.new ≠ [] := alookup_isSome_ne_nil p.new k0 (hnew k0 hk0)
  have hnv : pyGetItems p.new env.rootPks = Except.ok (newPkValues env p) :=
    pyGetItems_ok p.new env.rootPks hnew
  have hnvlen : (newPkValues env p).length = env.rootPks.length :=
    filterMap_length_of_all (alookup p.new) env.rootPks hnew
  unfold update_root_body
  rw [data_eq_new p hnewne, hpks, hnv]
  simp only [except_bind_ok, htab, dictAppend_of_lookup fs env.rootTable cur _ hcur]
  by_cases hc : (env.rootPks.all (fun k => (alookup p.old k).isSome)) = true ∧
      oldPkValues env p ≠ newPkValues env p
  · have holdlen : (oldPkValues env p).length = env.rootPks.length :=
      filterMap_length_of_all (alookup p.old) env.rootPks
        (by
          intro k hk
          have hall := hc.1
          simp only [List.all_eq_true] at hall
          exact hall k hk)
    have holdne : oldPkValues env p ≠ [] := by
      intro hnil
      rw [hnil] at holdlen
      have := List.length_pos.mpr hpkne
      simp only [List.length_nil] at holdlen
      omega
    rw [if_pos (⟨holdlen.trans hnvlen.symm, hc.2⟩ :
        (oldPkValues env p).length = (newPkValues env p).length ∧
          oldPkValues env p ≠ newPkValues env p),
      get_doc_id_ok _ holdne]
    simp only [except_bind_ok, hroute]
    unfold oldDeleteDoc
    rw [if_pos hc]
    rfl
  · have hcond : ¬((oldPkValues env p).length = (newPkValues env p).length ∧
        oldPkValues env p ≠ newPkValues env p) := by
      intro hcon
      apply hc
      refine ⟨?_, hcon.2⟩
      simp only [List.all_eq_true]
      intro k hk
      have hlen : (oldPkValues env p).length = env.rootPks.length := by
        rw [hcon.1, hnvlen]
      exact (filterMap_length_eq_iff (alookup p.old) env.rootPks).mp hlen k hk
    rw [if_neg hcond]
    unfold oldDeleteDoc
    rw [if_neg hc]
    simp [newPkRecord]

theorem update_root_fold (env : Env) (node : NodeInfo)
    (htab : node.table = env.rootTable) (hpks : node.pks = env.rootPks)
    (hroute : env.routing = none) (hpkne : env.rootPks ≠ [])
    (payloads : List Payload)
    (hnew : ∀ p ∈ payloads, ∀ k ∈ env.rootPks, (alookup p.new k).isSome) :
    ∀ (fs : Filters) (docs : List BulkOp) (cur : List FilterRec),
      alookup fs env.rootTable = some cur →
      ∃ f', payloads.foldlM (update_root_body env node) (fs, docs) =
          Except.ok (f', docs ++ payloads.filterMap (oldDeleteDoc env)) ∧
        alookup f' env.rootTable = some (cur ++ payloads.map (newPkRecord env)) ∧
        (∀ t, (env.rootTable == t) = false → alookup f' t = alookup fs t) := by
  induction payloads with
  | nil =>
    intro fs docs cur hcur
    refine ⟨fs, ?_, ?_, fun t _ => rfl⟩
    · rw [List.foldlM_nil]
      simp only [List.filterMap_nil, List.append_nil]
      rfl
    · simpa using hcur
  | cons p ps ih =>
    intro fs docs cur hcur
    have hbody := update_root_body_ok env node p htab hpks hroute hpkne
      (hnew p (List.mem_cons_self p ps)) fs docs cur hcur
    obtain ⟨f', h1, h2, h3⟩ := ih (fun q hq => hnew q (List.mem_cons_of_mem _ hq))
      (dictSet fs env.rootTable (cur ++ [newPkRecord env p]))
      (docs ++ (oldDeleteDoc env p).toList)
      (cur ++ [newPkRecord env p])
      (alookup_dictSet_self fs env.rootTable (cur ++ [newPkRecord env p]))
    refine ⟨f', ?_, ?_, ?_⟩
    · rw [List.foldlM_cons, hbody, except_bind_ok, h1]
      congr 1
      rw [List.filterMap_cons]
      cases hod : oldDeleteDoc env p with
      | none => simp
      | some d => simp
    · rw [h2]
      simp
    · intro t ht
      rw [h3 t ht, alookup_dictSet_other _ _ _ _ ht]

/-- C2: for a run of UPDATE payloads on the root table, each payload
appends its new primary-key tuple (payload.data, which equals new) to the
root-table filter slot, every other slot is untouched, and a direct
bulk-delete op for the old doc id is emitted for exactly those payloads
whose old map holds every root primary key with values differing from the
new ones (the guard of oldDeleteDoc); the collected delete docs go out as
one bulk call, none when no primary key changed. -/
theorem update_root_claim (env : Env) (node : NodeInfo) (filters : Filters)
    (payloads : List Payload)
    (hroot : node.isRoot = true) (htab : node.table = env.rootTable)
    (hpks : node.pks = env.rootPks) (hpkne : env.rootPks ≠ [])
    (hroute : env.routing = none)
    (hnew : ∀ p ∈ payloads, ∀ k ∈ env.rootPks, (alookup p.new k).isSome)
    (cur : List FilterRec) (hslot : alookup filters env.rootTable = some cur) :
    ∃ f', update_op env node filters payloads =
        Except.ok (f', bulkOfDocs (payloads.filterMap (oldDeleteDoc env))) ∧
      alookup f' env.rootTable = some (cur ++ payloads.map (newPkRecord env)) ∧
      (∀ t, (env.rootTable == t) = false → alookup f' t = alookup filters t) := by
  obtain ⟨f', h1, h2, h3⟩ := update_root_fold env node htab hpks hroute hpkne
    payloads hnew filters [] cur hslot
  refine ⟨f', ?_, h2, h3⟩
  unfold update_op
  rw [if_pos hroot, h1, except_bind_ok]
  simp only [List.nil_append]
  unfold bulkOfDocs
  by_cases hd : (payloads.filterMap (oldDeleteDoc env)).isEmpty = true
  · rw [if_pos hd, if_pos hd]
  · rw [if_neg hd, if_neg hd]

def payloadU : Payload :=
  { tg_op := "UPDATE", table := "book", schema := "public",
    old := [("id", PyVal.vint 7)], new := [("id", PyVal.vint 8)], xmin := some 102 }

/-- C2 witness: an UPDATE on root book changing the primary key from 7
to 8. -/
theorem update_root_claim_witness :
    ∃ f', update_op envW nodeW [("book", ([] : List FilterRec))] [payloadU] =
        Except.ok (f', bulkOfDocs ([payloadU].filterMap (oldDeleteDoc envW))) ∧
      alookup f' envW.rootTable =
        some ([] ++ [payloadU].map (newPkRecord envW)) ∧
      (∀ t, (envW.rootTable == t) = false →
        alookup f' t = alookup [("book", ([] : List FilterRec))] t) :=
  update_root_claim envW nodeW [("book", ([] : List FilterRec))] [payloadU]
    rfl rfl rfl (by decide) rfl (by decide) [] (by decide)

/-! Development for the filter-execution claim. -/

theorem flatMap_cons_head_ne_nil {α β : Type} (f : α → List β) (x : α) (xs : List α)
    (h : f x ≠ []) : (x :: xs).flatMap f ≠ [] := by
  simp only [List.flatMap_cons]
  intro hcon
  exact h (List.append_eq_nil.mp hcon).1

theorem exec_inner_none (env : Env) (node : NodeInfo) (chunkSize : Nat)
    (filters : Filters) (l1 : List FilterRec)
    (h : alookup filters node.table = none) :
    exec_inner env node chunkSize filters l1 = [sync_call_1 env l1] := by
  unfold exec_inner
  rw [h]

theorem exec_inner_some_nil (env : Env) (node : NodeInfo) (chunkSize : Nat)
    (filters : Filters) (l1 : List FilterRec)
    (h : alookup filters node.table = some []) :
    exec_inner env node chunkSize filters l1 = [sync_call_1 env l1] := by
  unfold exec_inner
  rw [h]

theorem exec_inner_some_cons (env : Env) (node : NodeInfo) (chunkSize : Nat)
    (filters : Filters) (l1 : List FilterRec) (x : FilterRec) (xs : List FilterRec)
    (h : alookup filters node.table = some (x :: xs)) :
    exec_inner env node chunkSize filters l1 =
      (chunks (x :: xs) chunkSize).flatMap (fun l2 =>
        if node.isRoot = false then
          match node.parentTable.bind
              (fun pt => (alookup filters pt).map (fun s => (pt, s))) with
          | some (pt, y :: ys) =>
            (chunks (y :: ys) chunkSize).map (fun l3 => sync_call_3 env node pt l1 l2 l3)
          | _ => [sync_call_2 env node l1 l2]
        else [sync_call_2 env node l1 l2]) := by
  unfold exec_inner
  rw [h]

theorem exec_inner_ne_nil (env : Env) (node : NodeInfo) (chunkSize : Nat)
    (filters : Filters) (l1 : List FilterRec) :
    exec_inner env node chunkSize filters l1 ≠ [] := by
  cases halo : alookup filters node.table with
  | none => rw [exec_inner_none env node chunkSize filters l1 halo]; simp
  | some s =>
    cases s with
    | nil => rw [exec_inner_some_nil env node chunkSize filters l1 halo]; simp
    | cons x xs =>
      rw [exec_inner_some_cons env node chunkSize filters l1 x xs halo, chunks_cons]
      apply flatMap_cons_head_ne_nil
      by_cases hr : node.isRoot = false
      · simp only [hr]
        cases hpm : node.parentTable.bind
            (fun pt => (alookup filters pt).map (fun s => (pt, s))) with
        | none => simp [hpm]
        | some pr =>
          obtain ⟨pt, slot⟩ := pr
          cases slot with
          | nil => simp [hpm]
          | cons y ys => simp [hpm, chunks_cons]
      · simp [hr]

theorem exec_inner_slots (env : Env) (node : NodeInfo) (chunkSize : Nat)
    (filters : Filters) (l1 : List FilterRec) (hl1 : l1 ≠ [])
    (call : Filters) (hc : call ∈ exec_inner env node chunkSize filters l1) :
    ∃ t slot, alookup call t = some slot ∧ slot ≠ [] := by
  cases halo : alookup filters node.table with
  | none =>
    rw [exec_inner_none env node chunkSize filters l1 halo] at hc
    simp only [List.mem_singleton] at hc
    exact ⟨env.rootTable, l1, by rw [hc]; exact alookup_dictSet_self _ _ _, hl1⟩
  | some s =>
    cases s with
    | nil =>
      rw [exec_inner_some_nil env node chunkSize filters l1 halo] at hc
      simp only [List.mem_singleton] at hc
      exact ⟨env.rootTable, l1, by rw [hc]; exact alookup_dictSet_self _ _ _, hl1⟩
    | cons x xs =>
      rw [exec_inner_some_cons env node chunkSize filters l1 x xs halo] at hc
      obtain ⟨l2, hl2, hmem⟩ := List.mem_flatMap.mp hc
      have hl2ne : l2 ≠ [] := chunks_mem_ne_nil _ _ _ hl2
      by_cases hr : node.isRoot = false
      · simp only [hr] at hmem
        cases hpm : node.parentTable.bind
            (fun pt => (alookup filters pt).map (fun s => (pt, s))) with
        | none =>
          rw [hpm] at hmem
          simp at hmem
          exact ⟨node.table, l2, by rw [hmem]; exact alookup_dictSet_self _ _ _, hl2ne⟩
        | some pr =>
          obtain ⟨pt, slot⟩ := pr
          cases slot with
          | nil =>
            rw [hpm] at hmem
            simp at hmem
            exact ⟨node.table, l2, by rw [hmem]; exact alookup_dictSet_self _ _ _, hl2ne⟩
          | cons y ys =>
            rw [hpm] at hmem
            simp at hmem
            obtain ⟨l3, hl3, hcall⟩ := hmem
            have hl3ne : l3 ≠ [] := chunks_mem_ne_nil _ _ _ hl3
            exact ⟨pt, l3, by rw [← hcall]; exact alookup_dictSet_self _ _ _, hl3ne⟩
      · simp [hr] at hmem
        exact ⟨node.table, l2, by rw [hmem]; exact alookup_dictSet_self _ _ _, hl2ne⟩

theorem any_nonempty_of_alookup (filters : Filters) (k : Key) (v : List FilterRec)
    (h : alookup filters k = some v) (hv : v ≠ []) :
    (filters.any (fun kv => !kv.2.isEmpty)) = true := by
  unfold alookup at h
  cases hf : filters.find? (fun kv => kv.1 == k) with
  | none => rw [hf] at h; exact absurd h (by simp)
  | some e =>
    rw [hf] at h
    have he : e ∈ filters := List.mem_of_find?_eq_some hf
    have hev : e.2 = v := by simpa using h
    simp only [List.any_eq_true]
    refine ⟨e, he, ?_⟩
    rw [hev]
    simpa using hv

theorem filters_exec_some (env : Env) (node : NodeInfo) (chunkSize : Nat)
    (filters : Filters) (rootSlot : List FilterRec)
    (hany : (filters.any (fun kv => !kv.2.isEmpty)) = true)
    (hroot : alookup filters env.rootTable = some rootSlot) :
    filters_exec env node chunkSize filters =
      Except.ok ((chunks rootSlot chunkSize).flatMap
        (exec_inner env node chunkSize filters)) := by
  unfold filters_exec
  rw [if_pos hany, hroot]

/-- C5 amended: the filter-execution stage runs without error and calls
sync at least once exactly when the root-table slot is non-empty; every
sync call it issues carries at least one non-empty slot (so sync is never
invoked with an entirely empty filter set).  A filter set whose only
non-empty slots are the node or parent slots triggers no sync call at
all, as the counterexample shows. -/
theorem filters_exec_claim (env : Env) (node : NodeInfo) (chunkSize : Nat)
    (filters : Filters) (rootSlot : List FilterRec)
    (hroot : alookup filters env.rootTable = some rootSlot) :
    ∃ calls, filters_exec env node chunkSize filters = Except.ok calls ∧
      (calls ≠ [] ↔ rootSlot ≠ []) ∧
      (∀ call ∈ calls, ∃ t slot, alookup call t = some slot ∧ slot ≠ []) := by
  by_cases hrs : rootSlot = []
  · subst hrs
    by_cases hany : (filters.any (fun kv => !kv.2.isEmpty)) = true
    · refine ⟨[], ?_, by simp, by simp⟩
      rw [filters_exec_some env node chunkSize filters [] hany hroot, chunks_nil]
      rfl
    · refine ⟨[], ?_, by simp, by simp⟩
      unfold filters_exec
      rw [if_neg hany]
  · have hany := any_nonempty_of_alookup filters env.rootTable rootSlot hroot hrs
    refine ⟨(chunks rootSlot chunkSize).flatMap (exec_inner env node chunkSize filters),
      ?_, ?_, ?_⟩
    · exact filters_exec_some env node chunkSize filters rootSlot hany hroot
    · constructor
      · intro _; exact hrs
      · intro _
        cases hc : rootSlot with
        | nil => exact absurd hc hrs
        | cons x xs =>
          rw [chunks_cons]
          exact flatMap_cons_head_ne_nil _ _ _ (exec_inner_ne_nil env node chunkSize filters _)
    · intro call hcall
      obtain ⟨l1, hl1, hmem⟩ := List.mem_flatMap.mp hcall
      exact exec_inner_slots env node chunkSize filters l1
        (chunks_mem_ne_nil _ _ _ hl1) call hmem

/-- C5 witness: a filter set whose root slot book holds one record. -/
theorem filters_exec_claim_witness :
    ∃ calls, filters_exec envW nodeW 500
        [("book", [[("id", PyVal.vint 1)]])] = Except.ok calls ∧
      (calls ≠ [] ↔ ([[("id", PyVal.vint 1)]] : List FilterRec) ≠ []) ∧
      (∀ call ∈ calls, ∃ t slot, alookup call t = some slot ∧ slot ≠ []) :=
  filters_exec_claim envW nodeW 500 [("book", [[("id", PyVal.vint 1)]])]
    [[("id", PyVal.vint 1)]] (by decide)

def envC5 : Env :=
  { index := "rootidx", rootName := "root", rootTable := "root", rootPks := ["rid"],
    tables := ["root", "mid", "child"], schemas := ["public"], routing := none,
    legacyType := false, useAsync := false,
    search := fun _ _ => [], searchAll := fun _ => [],
    getFK := fun _ _ => Except.ok [("child", ["mid_id"]), ("mid", ["mid_id"])],
    getFKalt := fun _ _ => Except.error PyErr.foreignKeyError,
    rootFkConstraint := fun _ => none }

def nodeC5 : NodeInfo :=
  { name := "child", table := "child", isRoot := false, parentName := some "mid",
    parentTable := some "mid", pks := ["cid"] }

def payloadC5 : Payload :=
  { tg_op := "INSERT", table := "child", schema := "public",
    old := [], new := [("cid", PyVal.vint 1), ("mid_id", PyVal.vint 5)],
    xmin := some 110 }

/-- C5 counterexample: an INSERT on a grandchild node whose index lookups
return no hits populates only the parent-table slot; the produced filter
set has a non-empty slot, yet the execution stage issues no sync call at
all (the root slot is empty), refuting that sync runs whenever at least
one slot list is non-empty. -/
theorem filters_exec_counterexample :
    insert_op envC5 nodeC5
        ([("child", []), ("root", []), ("mid", [])] : Filters) [payloadC5] =
      Except.ok ([("child", []), ("root", []),
        ("mid", [[("mid_id", PyVal.vint 5)]])] : Filters) ∧
    (([("child", []), ("root", []),
        ("mid", [[("mid_id", PyVal.vint 5)]])] : Filters).any
      (fun kv => !kv.2.isEmpty)) = true ∧
    filters_exec envC5 nodeC5 500
      ([("child", []), ("root", []), ("mid", [[("mid_id", PyVal.vint 5)]])] : Filters) =
      Except.ok [] ∧
    payloads_run envC5 nodeC5 500 [payloadC5] = Except.ok ([], []) := by
  refine ⟨?_, ?_, ?_, ?_⟩ <;> decide

/-! Development for the foreign-key fallback claim. -/

/-- The environment whose preferred lookup answers the (pn, nn) pair with
the result of the alternative lookup; running an op under it states that
the op consults the alternative path for that pair. -/
def envSubstFK (env : Env) (pn nn : String) : Env :=
  { env with getFK := fun a b =>
      if a = pn ∧ b = nn then env.getFKalt pn nn else env.getFK a b }

theorem fb_subst (env : Env) (pn nn : String)
    (hfail : env.getFK pn nn = Except.error PyErr.foreignKeyError) :
    get_foreign_keys_fb (envSubstFK env pn nn) pn nn =
      get_foreign_keys_fb env pn nn := by
  unfold get_foreign_keys_fb
  have hsub : (envSubstFK env pn nn).getFK pn nn = env.getFKalt pn nn := by
    unfold envSubstFK
    simp
  rw [hsub, hfail]
  cases halt : env.getFKalt pn nn with
  | ok v => rfl
  | error e =>
    cases e with
    | foreignKeyError =>
      show env.getFKalt pn nn = Except.error PyErr.foreignKeyError
      exact halt
    | keyError => rfl
    | indexError => rfl
    | typeError => rfl
    | valueError => rfl
    | invalidTGOP => rfl
    | primaryKeyNotFound => rfl
    | runtimeError => rfl
    | attributeError => rfl

theorem insert_op_tree_root (env : Env) (node : NodeInfo) (filters : Filters)
    (payloads : List Payload) (hin : node.table ∈ env.tables)
    (hr : node.isRoot = true) :
    insert_op env node filters payloads =
      payloads.foldlM (insert_root_body env node) filters := by
  unfold insert_op
  rw [if_pos hin, if_pos hr]

theorem insert_op_tree_child (env : Env) (node : NodeInfo) (filters : Filters)
    (payloads : List Payload) (pn : String)
    (hin : node.table ∈ env.tables) (hr : ¬(node.isRoot = true))
    (hp : node.parentName = some pn) :
    insert_op env node filters payloads = (do
      let foreignKeys ← get_foreign_keys_fb env pn node.name
      let res ← payloads.foldlM (insert_child_body env node pn foreignKeys)
        (filters, ([] : List FilterRec))
      if res.2.isEmpty then Except.ok res.1
      else dictAppend res.1 env.rootTable res.2) := by
  unfold insert_op
  rw [if_pos hin, if_neg hr, hp]

theorem update_child_fk_part_some (env : Env) (node : NodeInfo) (p : Payload)
    (f1 : List FilterRec) (pn : String) (hp : node.parentName = some pn) :
    update_child_fk_part env node p f1 = (do
      let foreignKeys ← get_foreign_keys_fb env pn node.name
      root_foreign_key_resolver env node p foreignKeys f1) := by
  unfold update_child_fk_part
  rw [hp]

theorem update_child_fk_part_subst (env : Env) (node : NodeInfo) (pn : String)
    (p : Payload) (hp : node.parentName = some pn)
    (hfail : env.getFK pn node.name = Except.error PyErr.foreignKeyError) :
    update_child_fk_part (envSubstFK env pn node.name) node p =
      update_child_fk_part env node p := by
  funext f1
  rw [update_child_fk_part_some (envSubstFK env pn node.name) node p f1 pn hp,
    update_child_fk_part_some env node p f1 pn hp,
    fb_subst env pn node.name hfail]
  rfl

theorem update_child_body_subst (env : Env) (node : NodeInfo) (pn : String)
    (hp : node.parentName = some pn)
    (hfail : env.getFK pn node.name = Except.error PyErr.foreignKeyError) :
    update_child_body (envSubstFK env pn node.name) node =
      update_child_body env node := by
  funext fs p
  unfold update_child_body
  rw [update_child_fk_part_subst env node pn p hp hfail]
  rfl

/-- C8 amended: when the preferred foreign-key lookup raises
ForeignKeyError, the INSERT-on-a-tree-node path and the UPDATE path fall
back to the alternative lookup: running either op equals running it in an
environment whose preferred lookup answers with the alternative result
for that pair.  The pure-through-table INSERT path (node table outside
the tree tables) has no such fallback, as the counterexample shows. -/
theorem fk_fallback_claim (env : Env) (node : NodeInfo) (filters : Filters)
    (payloads : List Payload) (pn : String)
    (hp : node.parentName = some pn)
    (hfail : env.getFK pn node.name = Except.error PyErr.foreignKeyError)
    (hin : node.table ∈ env.tables) :
    insert_op (envSubstFK env pn node.name) node filters payloads =
      insert_op env node filters payloads ∧
    update_op (envSubstFK env pn node.name) node filters payloads =
      update_op env node filters payloads := by
  constructor
  · by_cases hr : node.isRoot = true
    · rw [insert_op_tree_root (envSubstFK env pn node.name) node filters payloads hin hr,
        insert_op_tree_root env node filters payloads hin hr]
      rfl
    · rw [insert_op_tree_child (envSubstFK env pn node.name) node filters payloads pn
          hin hr hp,
        insert_op_tree_child env node filters payloads pn hin hr hp,
        fb_subst env pn node.name hfail]
      rfl
  · by_cases hr : node.isRoot = true
    · unfold update_op
      rw [if_pos hr, if_pos hr]
      rfl
    · unfold update_op
      rw [if_neg hr, if_neg hr, update_child_body_subst env node pn hp hfail]

/-! Concrete C8 instances: a non-root tree child (author under book) with a
preferred foreign-key lookup that raises ForeignKeyError while the
alternative lookup succeeds, and a pure through-table (book_author) in the
same situation. -/

def envF : Env :=
  { index := "bookidx", rootName := "book", rootTable := "book", rootPks := ["id"],
    tables := ["book", "author"], schemas := ["public"], routing := none,
    legacyType := false, useAsync := false,
    search := fun _ _ => [], searchAll := fun _ => [],
    getFK := fun _ _ => Except.error PyErr.foreignKeyError,
    getFKalt := fun _ _ => Except.ok [("author", ["book_id"]), ("book", ["id"])],
    rootFkConstraint := fun _ => none }

def nodeF : NodeInfo :=
  { name := "author", table := "author", isRoot := false, parentName := some "book",
    parentTable := some "book", pks := ["id"] }

def payloadF : Payload :=
  { tg_op := "INSERT", table := "author", schema := "public", old := [],
    new := [("id", PyVal.vint 3), ("book_id", PyVal.vint 8)], xmin := some 50 }

/-- C8 witness: on the author child node the preferred lookup fails with
ForeignKeyError, and both insert_op and update_op behave exactly as they
would if the preferred lookup had answered with the alternative result. -/
theorem fk_fallback_claim_witness :
    nodeF.parentName = some "book" ∧
    envF.getFK "book" nodeF.name = Except.error PyErr.foreignKeyError ∧
    insert_op (envSubstFK envF "book" "author") nodeF [] [payloadF] =
      insert_op envF nodeF [] [payloadF] ∧
    update_op (envSubstFK envF "book" "author") nodeF [] [payloadF] =
      update_op envF nodeF [] [payloadF] :=
  ⟨rfl, rfl,
    (fk_fallback_claim envF nodeF [] [payloadF] "book" rfl rfl (by decide)).1,
    (fk_fallback_claim envF nodeF [] [payloadF] "book" rfl rfl (by decide)).2⟩

def nodeT : NodeInfo :=
  { name := "book_author", table := "book_author", isRoot := false,
    parentName := some "book", parentTable := some "book", pks := ["book_id"] }

def payloadT : Payload :=
  { tg_op := "INSERT", table := "book_author", schema := "public", old := [],
    new := [("book_id", PyVal.vint 8), ("author_id", PyVal.vint 3)], xmin := some 51 }

/-- C8 counterexample: on the pure through-table path (node table not in
the tree tables) the INSERT op consults only the preferred lookup; when it
raises ForeignKeyError the error propagates even though the alternative
lookup would have succeeded, so no fallback happens on this path. -/
theorem fk_through_table_counterexample :
    nodeT.table ∉ envF.tables ∧
    envF.getFKalt "book" "book_author" =
      Except.ok [("author", ["book_id"]), ("book", ["id"])] ∧
    insert_op envF nodeT [] [payloadT] = Except.error PyErr.foreignKeyError := by
  refine ⟨by decide, rfl, ?_⟩
  rfl
